import Mathlib

/-!
Verification of the composable-allocator library.

This file shallowly embeds the data model and the operations of the
allocator stack: the embedded bitmap map (BlockMap), the block-header
heap operations (SplitBlock, CoalesceBlock, the fit searches,
FindPriorBlock, ReleaseBlockList), the free-list strategy, the
lock-free bump strategy, the lock-free page provider and the
single-threaded page provider.  Machine integers are modelled as `Nat`
with explicit `% 2^w` where the source relies on unsigned wraparound;
pointers are modelled as `Nat` with `0` playing the role of `nullptr`;
loops are modelled with explicit fuel, where a `none` result means the
source loop has not terminated within the given number of iterations.
-/

namespace Allocators

/-- Public error taxonomy, from the allocator error header. -/
inductive Error where
  | InvalidInput
  | SizeRequestTooLarge
  | ReachedMemoryLimit
  | NoFreeBlock
  | OutOfMemory
  | OperationNotSupported
  | Internal
  deriving DecidableEq, Repr

/-- Internal failure taxonomy of the block layer. -/
inductive Failure where
  | HeaderIsNullptr
  | InvalidSize
  | InvalidAlignment
  | BlockTooSmall
  | AllocationFailed
  | ReleaseFailed
  deriving DecidableEq, Repr

deriving instance DecidableEq for Except

/-- Wraparound modulus of the 64-bit size type. -/
def U64 : Nat := 2 ^ 64

/-- Word size of the modelled 64-bit platform, sizeof(void*). -/
def kMinimumAlignment : Nat := 8

/-- IsPowerOfTwo from the util header: n && !(n & (n - 1)). -/
def IsPowerOfTwo (n : Nat) : Bool := n != 0 && (n &&& (n - 1)) == 0

/-- AlignUp from the util header.  Zero inputs short-circuit to zero;
otherwise (n + a - 1) & ~(a - 1) in 64-bit arithmetic. -/
def AlignUp (n alignment : Nat) : Nat :=
  if n = 0 || alignment = 0 then 0
  else ((n + alignment - 1) % U64) &&& ((U64 - 1) ^^^ (alignment - 1))

/-- AlignDown from the util header. -/
def AlignDown (n alignment : Nat) : Nat :=
  if n = 0 || alignment = 0 then 0
  else n &&& ((U64 - 1) ^^^ (alignment - 1))

/-- IsValidAlignment: at least the word size and a power of two. -/
def IsValidAlignment (alignment : Nat) : Bool :=
  decide (kMinimumAlignment ≤ alignment) && IsPowerOfTwo alignment

/-- IsValidRequest / IsValid(Layout): non-zero size and a valid alignment. -/
def IsValidRequest (size alignment : Nat) : Bool :=
  size != 0 && IsValidAlignment alignment

/-- A page-aligned virtual-address range: integer base address plus page
count, as stored in the embedded map slots. -/
structure VirtualAddressRange where
  address : Nat
  count : Nat
  deriving DecidableEq, Repr

/-! ### Embedded bitmap map (BlockMap)

The open-addressed table embedded in one provider block.  The model is
parametric in the capacity `c` (in the source, capacity is derived from
the block size and the slot size).  `std::hash` of an integer key is the
identity on the modelled platform, so the home slot of a key is
`key % c`.  Slot state is a pair of functions: the occupancy bitset and
the slot array. -/

structure BlockMapState (c : Nat) where
  occupied : Nat → Bool
  table : Nat → VirtualAddressRange

/-- A freshly zeroed map: no occupancy bits set, all slots zero. -/
def emptyBlockMap (c : Nat) : BlockMapState c :=
  { occupied := fun _ => false, table := fun _ => ⟨0, 0⟩ }

/-- Probe body of Locate.  One fuel unit per loop-body execution; the
do-while executes the body at most `c` times before circling back to the
start index, so fuel `c` reproduces the loop exactly, with fuel
exhaustion corresponding to the loop-back exit.  At an occupied slot the
probe returns the index on a key match and stops with `none` on a key
mismatch; an unoccupied slot is skipped. -/
def locateAux (c : Nat) (occ : Nat → Bool) (tbl : Nat → VirtualAddressRange)
    (address : Nat) : Nat → Nat → Option Nat
  | 0, _ => none
  | fuel + 1, cur =>
    if occ cur then
      if (tbl cur).address = address then some cur else none
    else
      locateAux c occ tbl address fuel ((cur + 1) % c)

/-- BlockMap::Locate. -/
def bmLocate {c : Nat} (st : BlockMapState c) (address : Nat) : Option Nat :=
  locateAux c st.occupied st.table address c (address % c)

/-- BlockMap::Take: locate the key, then clear the occupancy bit and
return the stored range. -/
def bmTake {c : Nat} (st : BlockMapState c) (key : Nat) :
    Option VirtualAddressRange × BlockMapState c :=
  match bmLocate st key with
  | none => (none, st)
  | some i =>
    (some (st.table i),
     { st with occupied := fun j => if j = i then false else st.occupied j })

/-- Probe body of Insert for the occupied-home-slot case: the do-while
advances until it circles back to the start (failure) or reaches an
unoccupied slot (success). -/
def insertProbeAux (c : Nat) (occ : Nat → Bool) (start : Nat) :
    Nat → Nat → Option Nat
  | 0, _ => none
  | fuel + 1, cur =>
    let nxt := (cur + 1) % c
    if nxt = start then none
    else if occ nxt then insertProbeAux c occ start fuel nxt
    else some nxt

/-- BlockMap::Insert: store at the home slot if free, otherwise probe
linearly for an unoccupied slot; returns false if the probe circles back
to the start. -/
def bmInsert {c : Nat} (st : BlockMapState c) (v : VirtualAddressRange) :
    Bool × BlockMapState c :=
  let start := v.address % c
  let idx? :=
    if st.occupied start then insertProbeAux c st.occupied start c start
    else some start
  match idx? with
  | none => (false, st)
  | some i =>
    (true,
     { occupied := fun j => if j = i then true else st.occupied j,
       table := fun j => if j = i then v else st.table j })

/-- Position reached after `d` probe steps from `start`, modulo the
capacity. -/
def probePos (c start d : Nat) : Nat := (start + d) % c

/-! ### Block headers and the intrusive-list heap

A block header is a 16-byte record (size plus next pointer) embedded at
the start of a block.  Pointers are `Nat`, with `0` as `nullptr`.  The
heap is a single flat memory of 8-byte words indexed by byte address
(every address the allocators touch is 8-aligned: blocks are at least
word-aligned and every field offset and take is a multiple of 8): the
word at `a` is the size field of a header stored at `a`, the word at
`a + 8` its next field.  Overlapping header stores therefore interact
exactly as the source's byte stores do.  Provider pages are mapped
zero-filled, so an address never written reads as the all-zero
header. -/

/-- sizeof(BlockHeader): a size field and a next pointer, 8 bytes each. -/
def kBlockHeaderSize : Nat := 16

structure BlockHeader where
  size : Nat
  next : Nat
  deriving DecidableEq, Repr

structure BlockHeap where
  mem : Nat → Nat

/-- Read the header at address `a`: its size word and its next word. -/
def readHeader (s : BlockHeap) (a : Nat) : BlockHeader :=
  ⟨s.mem a, s.mem (a + 8)⟩

/-- Write the header at address `a`: store its size word at `a` and its
next word at `a + 8`. -/
def writeHeader (s : BlockHeap) (a : Nat) (h : BlockHeader) : BlockHeap :=
  { mem := fun x => if x = a then h.size else if x = a + 8 then h.next else s.mem x }

/-- ZeroBlock: zero the payload of the block whose header is at `a`,
i.e. the `size - header_size` bytes following the header. -/
def zeroBlock (s : BlockHeap) (a : Nat) : BlockHeap :=
  let sz := (readHeader s a).size
  { mem := fun x =>
      if a + kBlockHeaderSize ≤ x ∧
          x < a + kBlockHeaderSize + (sz - kBlockHeaderSize) then 0
      else s.mem x }

/-- SplitBlock from the internal block header.  Validates the
arguments, computes `take = AlignUp bytes_needed alignment` and the
remainder `block.size - take` in 64-bit unsigned arithmetic, and either
declines to split (result `0`, the null header) or zeroes the payload,
writes the remainder header at `block + take` and then rewrites
`block`, in the source's store order — so for `take = 8` the final
store of `block.next` lands on the size word of the new header at
`block + 8` and clobbers it, exactly as the byte stores do.  The
returned `Nat` is the new header address, `0` meaning no split. -/
def SplitBlock (s : BlockHeap) (blk bytes_needed alignment : Nat) :
    Except Failure (Nat × BlockHeap) :=
  if blk = 0 then .error .HeaderIsNullptr
  else if bytes_needed = 0 then .error .InvalidSize
  else if ¬ IsValidAlignment alignment then .error .InvalidAlignment
  else
    let hdr := readHeader s blk
    let total := AlignUp bytes_needed alignment
    let newSize := (hdr.size + U64 - total) % U64
    if newSize < AlignUp (kBlockHeaderSize + 1) alignment then .ok (0, s)
    else
      let s1 := zeroBlock s blk
      let newAddr := blk + total
      let s2 := writeHeader s1 newAddr ⟨newSize, hdr.next⟩
      let s3 := writeHeader s2 blk ⟨total, newAddr⟩
      .ok (newAddr, s3)

/-- Merge loop of CoalesceBlock: absorb the next header for as long as
it sits exactly at `block + block.size`. -/
def coalesceAux (blk : Nat) : Nat → BlockHeap → Option BlockHeap
  | 0, _ => none
  | fuel + 1, s =>
    let hdr := readHeader s blk
    if hdr.next = blk + hdr.size then
      let nxt := readHeader s hdr.next
      coalesceAux blk fuel
        (writeHeader s blk ⟨hdr.size + nxt.size, nxt.next⟩)
    else
      some s

/-- CoalesceBlock: merge address-adjacent successors into `blk`, then
zero the payload of the merged block. -/
def CoalesceBlock (s : BlockHeap) (fuel blk : Nat) :
    Option (Except Failure BlockHeap) :=
  if blk = 0 then some (.error .HeaderIsNullptr)
  else
    match coalesceAux blk fuel s with
    | none => none
    | some s2 => some (.ok (zeroBlock s2 blk))

/-- Walk of FindBlockByFirstFit: first header with size at least the
minimum. -/
def firstFitAux (s : BlockHeap) (minSize : Nat) :
    Nat → Nat → Nat → Option (Option (Nat × Nat))
  | 0, _, _ => none
  | fuel + 1, itr, prev =>
    if itr = 0 then some none
    else if minSize ≤ (readHeader s itr).size then some (some (itr, prev))
    else firstFitAux s minSize fuel (readHeader s itr).next itr

/-- FindBlockByFirstFit.  The result pair is (header, prev), with `0`
for a null prev. -/
def FindBlockByFirstFit (s : BlockHeap) (fuel head minSize : Nat) :
    Option (Except Failure (Option (Nat × Nat))) :=
  if head = 0 then some (.error .HeaderIsNullptr)
  else if minSize = 0 then some (.error .InvalidSize)
  else
    match firstFitAux s minSize fuel head 0 with
    | none => none
    | some r => some (.ok r)

/-- Walk of FindBlockByFit: scan the whole list, keeping the candidate
preferred by the comparator. -/
def fitAux (s : BlockHeap) (minSize : Nat) (cmp : Nat → Nat → Bool) :
    Nat → Nat → Nat → Option (Nat × Nat) → Option (Option (Nat × Nat))
  | 0, _, _, _ => none
  | fuel + 1, itr, prev, target =>
    if itr = 0 then some target
    else
      let sz := (readHeader s itr).size
      if sz < minSize then fitAux s minSize cmp fuel (readHeader s itr).next itr target
      else
        match target with
        | none => fitAux s minSize cmp fuel (readHeader s itr).next itr (some (itr, prev))
        | some t =>
          if cmp sz (readHeader s t.1).size then
            fitAux s minSize cmp fuel (readHeader s itr).next itr (some (itr, prev))
          else
            fitAux s minSize cmp fuel (readHeader s itr).next itr target

/-- FindBlockByFit with an explicit comparator. -/
def FindBlockByFit (s : BlockHeap) (fuel head minSize : Nat)
    (cmp : Nat → Nat → Bool) : Option (Except Failure (Option (Nat × Nat))) :=
  if head = 0 then some (.error .HeaderIsNullptr)
  else if minSize = 0 then some (.error .InvalidSize)
  else
    match fitAux s minSize cmp fuel head 0 none with
    | none => none
    | some r => some (.ok r)

/-- FindBlockByBestFit: the smallest header that fits. -/
def FindBlockByBestFit (s : BlockHeap) (fuel head minSize : Nat) :
    Option (Except Failure (Option (Nat × Nat))) :=
  FindBlockByFit s fuel head minSize (fun a b => decide (a < b))

/-- FindBlockByWorstFit: the largest header that fits. -/
def FindBlockByWorstFit (s : BlockHeap) (fuel head minSize : Nat) :
    Option (Except Failure (Option (Nat × Nat))) :=
  FindBlockByFit s fuel head minSize (fun a b => decide (b < a))

/-- Walk of FindPriorBlock. -/
def findPriorAux (s : BlockHeap) (blockp : Nat) : Nat → Nat → Option Nat
  | 0, _ => none
  | fuel + 1, itr =>
    let nxt := (readHeader s itr).next
    if nxt ≠ 0 ∧ nxt < blockp then findPriorAux s blockp fuel nxt
    else some itr

/-- FindPriorBlock: the header in `head`'s list whose successor would be
`blockp` in address order, or null (`0`) when `head ≥ blockp`. -/
def FindPriorBlock (s : BlockHeap) (fuel head blockp : Nat) :
    Option (Except Failure Nat) :=
  if blockp = 0 ∨ head = 0 then some (.error .HeaderIsNullptr)
  else if blockp ≤ head then some (.ok 0)
  else
    match findPriorAux s blockp fuel head with
    | none => none
    | some itr => some (.ok itr)

/-! ### Providers as seen by the strategies

The strategies only consume the provider trait: Provide hands out block
base addresses, Return takes them back.  For the strategy-level claims
the provider is modelled as a queue of block bases together with the
record of the blocks returned to it. -/

structure SimpleProvider where
  bases : List Nat
  returned : List Nat
  deriving DecidableEq, Repr

/-- Provide one block: the next base from the queue, or failure. -/
def provProvide (p : SimpleProvider) : Option (Nat × SimpleProvider) :=
  match p.bases with
  | [] => none
  | b :: rest => some (b, { p with bases := rest })

/-- Record a block returned to the provider. -/
def provReturn (p : SimpleProvider) (b : Nat) : SimpleProvider :=
  { p with returned := p.returned ++ [b] }

/-- Walk of ReleaseBlockList: release every block from `head` up to the
sentinel through the provider. -/
def releaseListAux (s : BlockHeap) (sentinel : Nat) :
    Nat → Nat → SimpleProvider → Option SimpleProvider
  | 0, _, _ => none
  | fuel + 1, itr, prov =>
    if itr = sentinel then some prov
    else releaseListAux s sentinel fuel (readHeader s itr).next (provReturn prov itr)

/-- ReleaseBlockList from the internal block header. -/
def ReleaseBlockList (s : BlockHeap) (fuel head sentinel : Nat)
    (prov : SimpleProvider) : Option (Except Failure SimpleProvider) :=
  if head = 0 then some (.error .HeaderIsNullptr)
  else
    match releaseListAux s sentinel fuel head prov with
    | none => none
    | some p => some (.ok p)

/-! ### Free-list strategy

Model of the free-list strategy: the single backing block pointer, the
free-list head pointer, the header heap and the upstream provider.  The
aligned size of the backing block is the provider block size. -/

inductive FindBy where
  | FirstFit
  | BestFit
  | WorstFit
  deriving DecidableEq, Repr

structure FLConfig where
  blockSize : Nat
  search : FindBy
  deriving DecidableEq, Repr

structure FLState where
  heap : BlockHeap
  blockPtr : Nat
  freeList : Nat
  provider : SimpleProvider

/-- Dispatch of GetFindBlockFn on the configured search strategy. -/
def flFindBlockFn (search : FindBy) (s : BlockHeap) (fuel head minSize : Nat) :
    Option (Except Failure (Option (Nat × Nat))) :=
  match search with
  | .FirstFit => FindBlockByFirstFit s fuel head minSize
  | .BestFit => FindBlockByBestFit s fuel head minSize
  | .WorstFit => FindBlockByWorstFit s fuel head minSize

/-- InitBlockIfUnset: on the first call obtain a provider block, write
the block header over its first bytes, and place the free-list head at
`block + header_size` spanning the rest of the block. -/
def flInit (cfg : FLConfig) (st : FLState) : Except Error FLState :=
  if st.blockPtr ≠ 0 then .ok st
  else
    match provProvide st.provider with
    | none => .error .OutOfMemory
    | some (base, prov2) =>
      let heap1 := writeHeader st.heap base ⟨cfg.blockSize, 0⟩
      let fl := base + kBlockHeaderSize
      let heap2 := writeHeader heap1 fl
        ⟨(readHeader heap1 base).size - kBlockHeaderSize, 0⟩
      .ok { heap := heap2, blockPtr := base, freeList := fl, provider := prov2 }

/-- FreeList::Find.  Validates the layout, sizes the request as
`AlignUp (size + header_size) alignment`, initialises the block lazily,
runs the configured search, splits the found header and splices the
remainder into the list in its place. -/
def flFind (cfg : FLConfig) (fuel : Nat) (st : FLState) (size align : Nat) :
    Option (Except Error Nat × FLState) :=
  if ¬ IsValidRequest size align then some (.error .InvalidInput, st)
  else
    let request := AlignUp (size + kBlockHeaderSize) align
    if cfg.blockSize < request then some (.error .SizeRequestTooLarge, st)
    else
      match flInit cfg st with
      | .error e => some (.error e, st)
      | .ok st1 =>
        match flFindBlockFn cfg.search st1.heap fuel st1.freeList request with
        | none => none
        | some (.error _) => some (.error .Internal, st1)
        | some (.ok none) => some (.error .NoFreeBlock, st1)
        | some (.ok (some (hdrP, prevP))) =>
          match SplitBlock st1.heap hdrP request align with
          | .error _ => some (.error .Internal, st1)
          | .ok (newHdr, heap2) =>
            let st2 := { st1 with heap := heap2 }
            let st3 :=
              if hdrP = st1.freeList then { st2 with freeList := newHdr }
              else if prevP ≠ 0 then
                { st2 with heap := (writeHeader st2.heap prevP
                    ⟨(readHeader st2.heap prevP).size, newHdr⟩) }
              else st2
            let st4 := { st3 with heap := (writeHeader st3.heap hdrP
                ⟨(readHeader st3.heap hdrP).size, 0⟩) }
            some (.ok (hdrP + kBlockHeaderSize), st4)

/-- FreeList::Return.  Rejects null and pointers failing the bounds
check `ptr < low || ptr > high` with `high = block + block->size`;
recovers the header at `ptr - header_size`, splices it into the free
list after the prior header, coalesces from the splice point, and when
the head's size equals the aligned block size releases the block list
to the provider (without resetting the block and free-list pointers,
which the source leaves commented out). -/
def flReturn (cfg : FLConfig) (fuel : Nat) (st : FLState) (ptr : Nat) :
    Option (Except Error Unit × FLState) :=
  if ptr = 0 then some (.error .InvalidInput, st)
  else
    let low := st.blockPtr
    let high := st.blockPtr + (readHeader st.heap st.blockPtr).size
    if ptr < low ∨ high < ptr then some (.error .InvalidInput, st)
    else
      let blockH := ptr - kBlockHeaderSize
      if st.freeList = 0 then some (.ok (), { st with freeList := blockH })
      else
        match FindPriorBlock st.heap fuel st.freeList blockH with
        | none => none
        | some (.error _) => some (.ok (), st)
        | some (.ok prior) =>
          let stSpliced :=
            if prior ≠ 0 then
              let nxt := (readHeader st.heap prior).next
              let heap1 := writeHeader st.heap prior
                ⟨(readHeader st.heap prior).size, blockH⟩
              let heap2 := writeHeader heap1 blockH
                ⟨(readHeader heap1 blockH).size, nxt⟩
              { st with heap := heap2 }
            else
              let heap1 := writeHeader st.heap blockH
                ⟨(readHeader st.heap blockH).size, st.freeList⟩
              { st with heap := heap1, freeList := blockH }
          let coalTarget := if prior ≠ 0 then prior else stSpliced.freeList
          match CoalesceBlock stSpliced.heap fuel coalTarget with
          | none => none
          | some (.error _) => some (.error .Internal, stSpliced)
          | some (.ok heap3) =>
            let st5 := { stSpliced with heap := heap3 }
            if (readHeader st5.heap st5.freeList).size = cfg.blockSize then
              match ReleaseBlockList st5.heap fuel st5.blockPtr 0 st5.provider with
              | none => none
              | some (.error _) => some (.ok (), st5)
              | some (.ok prov2) => some (.ok (), { st5 with provider := prov2 })
            else
              some (.ok (), st5)

/-- FreeList::AcceptsReturn, a compile-time constant of the strategy. -/
def flAcceptsReturn : Bool := false

/-- FreeList::AcceptsAlignment, a compile-time constant of the
strategy. -/
def flAcceptsAlignment : Bool := true

/-- State projection of a strategy step, with a fallback for a step
whose loop fuel ran out. -/
def flStateAfter {α : Type} (fallback : FLState) :
    Option (α × FLState) → FLState
  | some (_, st) => st
  | none => fallback

/-- Result projection of a strategy step. -/
def flResOf {α : Type} : Option (α × FLState) → Option α :=
  fun r => r.map Prod.fst

/-- Free-list chain reachable from a head pointer. -/
def freeChain (s : BlockHeap) : Nat → Nat → List Nat
  | 0, _ => []
  | fuel + 1, h => if h = 0 then [] else h :: freeChain s fuel (readHeader s h).next

/-! Concrete executions of the free-list strategy.  The configuration
uses a provider block of 128 bytes at base address 4096 and the default
best-fit search.  Each allocation request is 8 bytes at word alignment,
so every carved block takes `AlignUp (8 + 16) 8 = 24` bytes. -/

def cfg128 : FLConfig := { blockSize := 128, search := .BestFit }

def flSt0 : FLState :=
  { heap := { mem := fun _ => 0 },
    blockPtr := 0, freeList := 0,
    provider := { bases := [4096], returned := [] } }

def flRun1 : Option (Except Error Nat × FLState) := flFind cfg128 64 flSt0 8 8

def flSt1 : FLState := flStateAfter flSt0 flRun1

def flRun2 : Option (Except Error Nat × FLState) := flFind cfg128 64 flSt1 8 8

def flSt2 : FLState := flStateAfter flSt1 flRun2

def flRun3 : Option (Except Error Nat × FLState) := flFind cfg128 64 flSt2 8 8

def flSt3 : FLState := flStateAfter flSt2 flRun3

def flRet1 : Option (Except Error Unit × FLState) := flReturn cfg128 64 flSt3 4128

def flSt4 : FLState := flStateAfter flSt3 flRet1

def flRet3 : Option (Except Error Unit × FLState) := flReturn cfg128 64 flSt4 4176

def flSt5 : FLState := flStateAfter flSt4 flRet3

/-- Full-cycle run for the single outstanding allocation: the first
Find hands out the pointer 4128; returning it gives back every
outstanding allocation. -/
def flRetCycle : Option (Except Error Unit × FLState) := flReturn cfg128 64 flSt1 4128

def flStCycle : FLState := flStateAfter flSt1 flRetCycle

/-! ### Lock-free bump strategy

Sequential semantics of the lock-free bump strategy: with a single
caller every compare-and-swap succeeds, so the descriptor updates are
plain state transitions.  The packed descriptor fields keep their
bitfield widths: a 10-bit block-table index, a 16-bit size field and a
25-bit offset. -/

structure BumpDescriptor where
  initialized : Bool
  index : Nat
  size : Nat
  offset : Nat
  deriving DecidableEq, Repr

structure BumpState where
  active : BumpDescriptor
  blockTable : Nat → Nat
  provider : SimpleProvider

/-- AllocateNewBlock: advance the descriptor to a fresh zero-offset
block (the size field is copied from the old descriptor and never
assigned anywhere in the strategy), obtain the block from the provider
and publish it in the block table. -/
def bumpAllocateNewBlock (st : BumpState) : Except Error BumpState :=
  let old := st.active
  let newIdx := if old.initialized then (old.index + 1) % 2 ^ 10 else old.index
  match provProvide st.provider with
  | none => .error .OutOfMemory
  | some (base, prov2) =>
    .ok { active := { initialized := true, index := newIdx,
                      size := old.size, offset := 0 },
          blockTable := fun i => if i = newIdx then base else st.blockTable i,
          provider := prov2 }

/-- Allocation loop of LockFreeBump::Find.  The headroom is computed,
as in the source, as `block_size - old_active.size` in unsigned 64-bit
arithmetic (from the size field of the descriptor, not its offset
field). -/
def bumpFindLoop (blockSize : Nat) (grow : Bool) (request : Nat) :
    Nat → BumpState → Option (Except Error Nat × BumpState)
  | 0, _ => none
  | fuel + 1, st =>
    let old := st.active
    if ¬ old.initialized then
      match bumpAllocateNewBlock st with
      | .error e => some (.error e, st)
      | .ok st2 => bumpFindLoop blockSize grow request fuel st2
    else
      let headroom := (blockSize + U64 - old.size) % U64
      if headroom < request then
        if ¬ grow then some (.error .ReachedMemoryLimit, st)
        else
          match bumpAllocateNewBlock st with
          | .error e => some (.error e, st)
          | .ok st2 => bumpFindLoop blockSize grow request fuel st2
      else
        let st2 := { st with active := { old with
          offset := (old.offset + request) % 2 ^ 25 } }
        some (.ok (st.blockTable old.index + old.offset), st2)

/-- LockFreeBump::Find: validate the layout, align the request size up
to the alignment, reject requests beyond the provider block size, and
run the allocation loop. -/
def bumpFind (blockSize : Nat) (grow : Bool) (fuel : Nat) (st : BumpState)
    (size align : Nat) : Option (Except Error Nat × BumpState) :=
  if ¬ IsValidRequest size align then some (.error .InvalidInput, st)
  else
    let request := AlignUp size align
    if blockSize < request then some (.error .SizeRequestTooLarge, st)
    else bumpFindLoop blockSize grow request fuel st

/-- Iterate `n` Finds of 8 bytes at word alignment, collecting each
result. -/
def bumpRunN (blockSize : Nat) (grow : Bool) (fuel : Nat) :
    Nat → BumpState → List (Option (Except Error Nat)) × BumpState
  | 0, st => ([], st)
  | n + 1, st =>
    let r := bumpFind blockSize grow fuel st 8 8
    let st2 := match r with | some (_, s) => s | none => st
    let (rs, stF) := bumpRunN blockSize grow fuel n st2
    (r.map Prod.fst :: rs, stF)

/-- Fresh bump strategy over a provider holding one 80-byte block at
base 4096, grow policy ReturnNull. -/
def bumpSt0 : BumpState :=
  { active := { initialized := false, index := 0, size := 0, offset := 0 },
    blockTable := fun _ => 0,
    provider := { bases := [4096], returned := [] } }

/-- Results of eleven successive Finds of 8 bytes on the 80-byte
configuration. -/
def bumpEleven : List (Option (Except Error Nat)) :=
  (bumpRunN 80 false 4 11 bumpSt0).1

/-! ### Lock-free page provider

Sequential semantics of the concurrent page provider: the anchor and
the descriptor array are updated as by a single thread whose
compare-and-swap operations all succeed.  The anchor keeps its 18-bit
head and available fields. -/

/-- Wraparound modulus of the 18-bit anchor fields. -/
def U18 : Nat := 2 ^ 18

/-- Page size of the modelled platform. -/
def kPageSize : Nat := 4096

/-- Default page limit: 1GB of address range divided by the page size,
minus one. -/
def kDefaultLimit : Nat := 2 ^ 30 / kPageSize - 1

/-- Effective limit for a user template parameter: the maximum of the
default limit and the parameter. -/
def kLimitOf (param : Nat) : Nat := max kDefaultLimit param

inductive LFPStatus where
  | Initial
  | Allocating
  | Allocated
  | Failed
  deriving DecidableEq, Repr

structure LFPAnchor where
  status : LFPStatus
  head : Nat
  available : Nat
  deriving DecidableEq, Repr

structure LFPDescriptor where
  next : Nat
  occupied : Bool
  deriving DecidableEq, Repr

structure LFPState where
  anchor : LFPAnchor
  descriptors : Nat → LFPDescriptor
  heapBase : Option Nat

/-- State of the provider right after a successful InitializeHeap: the
descriptors form the chain i ↦ i + 1, the head is 0, and available is
the limit (stored in an 18-bit field). -/
def lfpInitialized (kLimit base : Nat) : LFPState :=
  { anchor := { status := .Allocated, head := 0, available := kLimit % U18 },
    descriptors := fun i => ⟨i + 1, false⟩,
    heapBase := some base }

/-- LockFreePage::Provide with `count` blocks requested.  A `none`
result models an anchor still in its initialisation states, where the
caller would attempt the initialisation or yield. -/
def lfpProvide (kLimit : Nat) (st : LFPState) (count : Nat) :
    Option (Except Error Nat × LFPState) :=
  if count = 0 ∨ kLimit < count then some (.error .InvalidInput, st)
  else if count ≠ 1 then some (.error .OperationNotSupported, st)
  else if st.anchor.status ≠ .Allocated then none
  else if st.anchor.available = 0 ∨ st.anchor.head = kLimit then
    some (.error .NoFreeBlock, st)
  else
    let h := st.anchor.head
    let anchor2 : LFPAnchor := { st.anchor with
      available := st.anchor.available - 1,
      head := (st.descriptors h).next % U18 }
    let descs2 := fun i => if i = h then (⟨0, true⟩ : LFPDescriptor)
      else st.descriptors i
    let base := st.heapBase.getD 0
    some (.ok (base + h * kPageSize),
      { st with anchor := anchor2, descriptors := descs2 })

/-- LockFreePage::Return.  Only null and a not-yet-initialised heap are
rejected; any other pointer is converted to a descriptor index from its
distance to the super-block base (in wrapping 64-bit arithmetic) and
pushed onto the free list. -/
def lfpReturn (st : LFPState) (p : Nat) : Except Error Unit × LFPState :=
  if p = 0 ∨ st.heapBase = none then (.error .InvalidInput, st)
  else
    let base := st.heapBase.getD 0
    let distance := (p + U64 - base) % U64
    let index := distance / kPageSize
    let descs2 := fun i => if i = index then
        (⟨st.anchor.head, false⟩ : LFPDescriptor)
      else st.descriptors i
    let anchor2 : LFPAnchor := { st.anchor with
      head := index % U18,
      available := (st.anchor.available + 1) % U18 }
    (.ok (), { st with anchor := anchor2, descriptors := descs2 })

/-- Iterate `n` single-page Provides, collecting each result. -/
def lfpProvideN (kLimit : Nat) :
    Nat → LFPState → List (Option (Except Error Nat)) × LFPState
  | 0, st => ([], st)
  | n + 1, st =>
    let r := lfpProvide kLimit st 1
    let st2 := match r with | some (_, s) => s | none => st
    let (rs, stF) := lfpProvideN kLimit n st2
    (r.map Prod.fst :: rs, stF)

/-- Return a list of pages in order, collecting each result. -/
def lfpReturnSeq : List Nat → LFPState → List (Except Error Unit) × LFPState
  | [], st => ([], st)
  | p :: ps, st =>
    let (r, st2) := lfpReturn st p
    let (rs, stF) := lfpReturnSeq ps st2
    (r :: rs, stF)

/-- Limit of a provider instantiated with the template parameter 8. -/
def kLimit8 : Nat := kLimitOf 8

/-- Super-block base used by the concrete provider runs. -/
def lfpBase : Nat := 2 ^ 20

def lfpScenSt0 : LFPState := lfpInitialized kLimit8 lfpBase

/-- The eight page addresses of the scenario, in order of first
acquisition. -/
def lfpPages : List Nat :=
  [lfpBase, lfpBase + 4096, lfpBase + 2 * 4096, lfpBase + 3 * 4096,
   lfpBase + 4 * 4096, lfpBase + 5 * 4096, lfpBase + 6 * 4096,
   lfpBase + 7 * 4096]

def lfpScenProvides1 : List (Option (Except Error Nat)) × LFPState :=
  lfpProvideN kLimit8 8 lfpScenSt0

def lfpScenReturns : List (Except Error Unit) × LFPState :=
  lfpReturnSeq lfpPages lfpScenProvides1.2

def lfpScenProvides2 : List (Option (Except Error Nat)) × LFPState :=
  lfpProvideN kLimit8 8 lfpScenReturns.2

/-! ### Single-threaded page provider

The single-threaded provider tracks outstanding ranges in a chain of
embedded arrays.  allocators/internal/block_array.hpp is not among the
sources, so the array is modelled from the spec; the provider's own
Return is translated from its source. -/

/-- Heap holding one 32-byte block at address 4096 (all other words
zero). -/
def c8Heap : BlockHeap := { mem := fun x => if x = 4096 then 32 else 0 }

def c8Split : Except Failure (Nat × BlockHeap) := SplitBlock c8Heap 4096 40 8

def c8IsOk : Bool := match c8Split with | .ok _ => true | .error _ => false

def c8NewHdr : Nat := match c8Split with | .ok (p, _) => p | .error _ => 0

def c8HeapAfter : BlockHeap :=
  match c8Split with | .ok (_, s) => s | .error _ => c8Heap

/-- Heap holding one free 112-byte block at address 4096, used both for
the take-below-header-size counterexample and to witness the split
postcondition. -/
def c8WHeap : BlockHeap := { mem := fun x => if x = 4096 then 112 else 0 }

/-- Split of the 112-byte block for 8 bytes at alignment 8: take = 8,
smaller than the 16-byte header, so the two headers overlap. -/
def c8OvSplit : Except Failure (Nat × BlockHeap) := SplitBlock c8WHeap 4096 8 8

def c8OvIsOk : Bool := match c8OvSplit with | .ok _ => true | .error _ => false

def c8OvNewHdr : Nat := match c8OvSplit with | .ok (p, _) => p | .error _ => 0

def c8OvHeapAfter : BlockHeap :=
  match c8OvSplit with | .ok (_, s) => s | .error _ => c8WHeap

/-- Map of capacity 4 holding the key 10 in its home slot 2, used to
witness the probe theorem. -/
def bmW : BlockMapState 4 :=
  { occupied := fun j => j == 2,
    table := fun j => if j = 2 then ⟨10, 1⟩ else ⟨0, 0⟩ }

/-- Provider state used to witness the LIFO reuse theorem: limit 2,
super-block at 8192. -/
def lfpW : LFPState := lfpInitialized 2 8192

/-! ## Helper lemmas -/

theorem readHeader_writeHeader_self (s : BlockHeap) (a : Nat) (h : BlockHeader) :
    readHeader (writeHeader s a h) a = h := by
  have h8 : a + 8 ≠ a := by omega
  simp [readHeader, writeHeader, h8]

theorem readHeader_writeHeader_ne (s : BlockHeap) (a b : Nat) (h : BlockHeader)
    (h1 : b ≠ a) (h2 : b ≠ a + 8) (h3 : b + 8 ≠ a) :
    readHeader (writeHeader s a h) b = readHeader s b := by
  have h4 : b + 8 ≠ a + 8 := by omega
  simp [readHeader, writeHeader, h1, h2, h3, h4]

theorem mem_writeHeader_ne (s : BlockHeap) (a : Nat) (h : BlockHeader)
    (x : Nat) (h1 : x ≠ a) (h2 : x ≠ a + 8) :
    (writeHeader s a h).mem x = s.mem x := by
  simp [writeHeader, h1, h2]

theorem probePos_zero (c cur : Nat) (hcur : cur < c) : probePos c cur 0 = cur := by
  simp [probePos, Nat.mod_eq_of_lt hcur]

theorem probePos_succ (c cur e : Nat) :
    probePos c ((cur + 1) % c) e = probePos c cur (e + 1) := by
  unfold probePos
  rw [Nat.mod_add_mod]
  congr 1
  omega

theorem locateAux_finds (c : Nat) (occ : Nat → Bool)
    (tbl : Nat → VirtualAddressRange) (k : Nat) :
    ∀ (d fuel cur : Nat), cur < c → d < fuel →
      occ (probePos c cur d) = true →
      (tbl (probePos c cur d)).address = k →
      (∀ e, e < d → occ (probePos c cur e) = true →
        (tbl (probePos c cur e)).address = k) →
      ∃ i, locateAux c occ tbl k fuel cur = some i ∧
        occ i = true ∧ (tbl i).address = k := by
  intro d
  induction d with
  | zero =>
    intro fuel cur hcur hfuel hocc hkey _
    obtain ⟨f, rfl⟩ : ∃ f, fuel = f + 1 := ⟨fuel - 1, by omega⟩
    rw [probePos_zero c cur hcur] at hocc hkey
    exact ⟨cur, by simp [locateAux, hocc, hkey], hocc, hkey⟩
  | succ d ih =>
    intro fuel cur hcur hfuel hocc hkey hbefore
    obtain ⟨f, rfl⟩ : ∃ f, fuel = f + 1 := ⟨fuel - 1, by omega⟩
    by_cases hc0 : occ cur = true
    · have hk0 : (tbl cur).address = k := by
        have := hbefore 0 (Nat.succ_pos d)
        rw [probePos_zero c cur hcur] at this
        exact this hc0
      exact ⟨cur, by simp [locateAux, hc0, hk0], hc0, hk0⟩
    · have hcur2 : (cur + 1) % c < c := Nat.mod_lt _ (by omega)
      have hocc2 : occ (probePos c ((cur + 1) % c) d) = true := by
        rw [probePos_succ]; exact hocc
      have hkey2 : (tbl (probePos c ((cur + 1) % c) d)).address = k := by
        rw [probePos_succ]; exact hkey
      have hbefore2 : ∀ e, e < d →
          occ (probePos c ((cur + 1) % c) e) = true →
          (tbl (probePos c ((cur + 1) % c) e)).address = k := by
        intro e he
        rw [probePos_succ]
        exact hbefore (e + 1) (by omega)
      obtain ⟨i, hloc, hio, hik⟩ :=
        ih f ((cur + 1) % c) hcur2 (by omega) hocc2 hkey2 hbefore2
      refine ⟨i, ?_, hio, hik⟩
      simpa [locateAux, hc0] using hloc

/-- C1 counterexample.  In a map of capacity 253 (the capacity of a
4096-byte map block), the keys 3 and 256 share the home slot 3.  Both
inserts succeed, yet Take(256) returns nothing, because the probe stops
at the occupied slot 3 whose stored key 3 differs from 256 — the exact
stop the claim says does not happen.  A key whose range is stored in
the map is therefore not found. -/
theorem blockMap_take_misses_collided_key :
    (bmInsert (emptyBlockMap 253) ⟨3, 1⟩).1 = true ∧
    (bmInsert (bmInsert (emptyBlockMap 253) ⟨3, 1⟩).2 ⟨256, 1⟩).1 = true ∧
    ((bmInsert (bmInsert (emptyBlockMap 253) ⟨3, 1⟩).2 ⟨256, 1⟩).2.occupied 4
      = true ∧
     ((bmInsert (bmInsert (emptyBlockMap 253) ⟨3, 1⟩).2 ⟨256, 1⟩).2.table 4
      ).address = 256) ∧
    (bmTake (bmInsert (bmInsert (emptyBlockMap 253) ⟨3, 1⟩).2 ⟨256, 1⟩).2
      256).1 = none := by
  decide

/-- C1 (corrected).  Take(k) finds and returns the stored range of k
whenever no occupied slot holding a different key precedes k's slot in
the probe order from the home slot `k % capacity`: the probe skips
unoccupied slots, so earlier deletions do not produce a false negative,
but it stops at the first occupied slot whose stored key differs, so a
key stored past a colliding occupant is not found (see the
counterexample). -/
theorem blockMap_take_finds_key_without_prior_collision
    (c : Nat) (st : BlockMapState c) (k d : Nat)
    (hd : d < c)
    (hocc : st.occupied (probePos c (k % c) d) = true)
    (hkey : (st.table (probePos c (k % c) d)).address = k)
    (hbefore : ∀ e, e < d → st.occupied (probePos c (k % c) e) = true →
      (st.table (probePos c (k % c) e)).address = k) :
    ∃ i, bmLocate st k = some i ∧ (st.table i).address = k ∧
      (bmTake st k).1 = some (st.table i) ∧
      (bmTake st k).2.occupied i = false := by
  have hcpos : 0 < c := by omega
  have hhome : k % c < c := Nat.mod_lt _ hcpos
  obtain ⟨i, hloc, _, hik⟩ :=
    locateAux_finds c st.occupied st.table k d c (k % c) hhome hd hocc hkey
      hbefore
  have hloc2 : bmLocate st k = some i := hloc
  exact ⟨i, hloc2, hik, by simp [bmTake, hloc2], by simp [bmTake, hloc2]⟩

/-- C1 witness: in a capacity-4 map holding the key 10 in its home
slot 2, Take(10) returns the stored range. -/
theorem blockMap_take_finds_key_without_prior_collision_witness :
    ∃ i, bmLocate bmW 10 = some i ∧ (bmW.table i).address = 10 ∧
      (bmTake bmW 10).1 = some (bmW.table i) ∧
      (bmTake bmW 10).2.occupied i = false :=
  blockMap_take_finds_key_without_prior_collision 4 bmW 10 0 (by decide)
    (by decide) (by decide)
    (fun e he _ => absurd he (Nat.not_lt_zero e))

/-- C2 (code_bug).  On the 80-byte, ReturnNull configuration, ten
Finds of 8 bytes succeed with contiguous stride-8 pointers, as the
claim states — but the eleventh Find also succeeds, returning the
out-of-bounds pointer 4176 = block + 80 instead of failing with
ReachedMemoryLimit: the source computes the headroom from the
descriptor's never-assigned `size` field (always 0) instead of its
`offset` field, so the capacity check never fires. -/
theorem lockFreeBump_eleventh_find_succeeds_beyond_capacity :
    bumpEleven =
      [some (.ok 4096), some (.ok 4104), some (.ok 4112), some (.ok 4120),
       some (.ok 4128), some (.ok 4136), some (.ok 4144), some (.ok 4152),
       some (.ok 4160), some (.ok 4168), some (.ok 4176)] ∧
    bumpEleven.getLast? ≠ some (some (.error .ReachedMemoryLimit)) := by
  decide

/-- C3 (code_bug).  One Find carves the only outstanding allocation
(pointer 4128) out of the 128-byte block; returning it returns every
outstanding allocation and coalescing runs, leaving the free-list head
spanning `block_size - header_size = 112` bytes.  The release condition
compares this against the full aligned size 128, so it never fires; no
block is returned to the provider, and the block and free-list pointers
stay set (the resetting statement is commented out in the source), so
the next Find does not lazily allocate a fresh block. -/
theorem freeList_full_return_keeps_block_and_pointers :
    flResOf flRun1 = some (.ok 4128) ∧
    flResOf flRetCycle = some (.ok ()) ∧
    (readHeader flStCycle.heap flStCycle.freeList).size =
      cfg128.blockSize - kBlockHeaderSize ∧
    flStCycle.blockPtr = 4096 ∧
    flStCycle.freeList = 4112 ∧
    flStCycle.provider.returned = [] := by
  decide

/-- C4 counterexample.  On the initialised strategy whose block spans
[4096, 4224), Return of the one-past-the-end pointer 4224 does not fail
with InvalidInput — the guard uses `ptr > high` with
`high = block + block->size`, so `ptr = high` slips through and the
call succeeds. -/
theorem freeList_return_accepts_one_past_end_pointer :
    flSt1.blockPtr = 4096 ∧
    (readHeader flSt1.heap 4096).size = 128 ∧
    flResOf (flReturn cfg128 64 flSt1 (4096 + 128)) = some (.ok ()) := by
  decide

/-- C4 (corrected).  Return rejects with InvalidInput, leaving the
strategy state unchanged, exactly the null pointer and every pointer
outside the closed interval [block_base, block_base + block_size]; the
one-past-the-end pointer block_base + block_size itself passes the
bounds check (see the counterexample). -/
theorem freeList_return_rejects_null_and_outside_closed_interval
    (cfg : FLConfig) (fuel : Nat) (st : FLState) (ptr : Nat)
    (_hb : st.blockPtr ≠ 0)
    (h : ptr = 0 ∨ ptr < st.blockPtr ∨
      st.blockPtr + (readHeader st.heap st.blockPtr).size < ptr) :
    flReturn cfg fuel st ptr = some (.error .InvalidInput, st) := by
  by_cases hp : ptr = 0
  · simp [flReturn, hp]
  · have hrange : ptr < st.blockPtr ∨
        st.blockPtr + (readHeader st.heap st.blockPtr).size < ptr := by
      rcases h with h0 | h1 | h2
      · exact absurd h0 hp
      · exact Or.inl h1
      · exact Or.inr h2
    simp [flReturn, hp, hrange]

/-- C4 witness: the pointer 4225, one byte past the closed interval of
the block [4096, 4224], is rejected with InvalidInput and the state is
unchanged. -/
theorem freeList_return_rejects_null_and_outside_closed_interval_witness :
    flReturn cfg128 64 flSt1 4225 = some (.error .InvalidInput, flSt1) :=
  freeList_return_rejects_null_and_outside_closed_interval cfg128 64 flSt1 4225
    (by decide) (Or.inr (Or.inr (by decide)))

/-- C5 counterexample.  On a freshly initialised provider no pointer
has ever been provided, yet Return of the super-block base succeeds
instead of failing with InvalidInput, and it changes the anchor: the
available count (at its limit) wraps in the 18-bit field. -/
theorem lockFreePage_return_accepts_foreign_pointer :
    (lfpReturn lfpScenSt0 lfpBase).1 = .ok () ∧
    (lfpReturn lfpScenSt0 lfpBase).2.anchor.available ≠
      lfpScenSt0.anchor.available := by
  decide

/-- C5 (corrected).  Return fails with InvalidInput — leaving the
anchor and the descriptor array unchanged — exactly for the null
pointer and for calls before the heap is initialised; a non-null
pointer that did not come from the provider is not detected, and the
call succeeds, updating the anchor and descriptors from whatever
descriptor index the pointer's distance to the super-block maps to
(see the counterexample). -/
theorem lockFreePage_return_invalid_only_null_or_uninitialized
    (st : LFPState) (p : Nat) :
    (p = 0 ∨ st.heapBase = none →
      lfpReturn st p = (.error .InvalidInput, st)) ∧
    (p ≠ 0 → st.heapBase ≠ none → (lfpReturn st p).1 = .ok ()) := by
  constructor
  · intro h
    simp [lfpReturn, h]
  · intro h1 h2
    simp [lfpReturn, h1, h2]

/-- C5 witness: on the initialised scenario provider, Return of null
fails with InvalidInput leaving the state unchanged, while Return of
the arbitrary address 5 succeeds. -/
theorem lockFreePage_return_invalid_only_null_or_uninitialized_witness :
    lfpReturn lfpScenSt0 0 = (.error .InvalidInput, lfpScenSt0) ∧
    (lfpReturn lfpScenSt0 5).1 = .ok () :=
  ⟨(lockFreePage_return_invalid_only_null_or_uninitialized lfpScenSt0 0).1
      (Or.inl rfl),
   (lockFreePage_return_invalid_only_null_or_uninitialized lfpScenSt0 5).2
      (by decide) (by simp [lfpScenSt0, lfpInitialized])⟩

/-- C7 (confirmed).  Reuse is LIFO.  In the sequential model, after a
successful Return of a page p of the provider, the next Provide(1)
returns p again; and on the limit-8 instantiation (whose effective
limit is the default maximum), eight Provides, eight Returns of those
pages in order, and eight further Provides yield exactly the eight
addresses in reverse order of their release. -/
theorem lockFreePage_reuse_is_lifo :
    (∀ (kLimit : Nat) (st : LFPState) (base i : Nat),
      st.anchor.status = .Allocated →
      st.heapBase = some base →
      0 < base →
      i < kLimit →
      kLimit ≤ U18 →
      (st.anchor.available + 1) % U18 ≠ 0 →
      (lfpReturn st (base + i * kPageSize)).1 = .ok () ∧
      (lfpProvide kLimit (lfpReturn st (base + i * kPageSize)).2 1).map
          Prod.fst = some (.ok (base + i * kPageSize))) ∧
    (lfpScenProvides1.1 = lfpPages.map (fun p => some (.ok p)) ∧
     lfpScenReturns.1 = lfpPages.map (fun _ => .ok ()) ∧
     lfpScenProvides2.1 = lfpPages.reverse.map (fun p => some (.ok p))) := by
  constructor
  · intro kLimit st base i hstatus hheap hbase hi hlim havail
    have hp0 : base + i * kPageSize ≠ 0 := by
      simp [kPageSize]; omega
    have hU18 : U18 = 2 ^ 18 := rfl
    have hiU : i < 2 ^ 18 := by omega
    have hdist : (base + i * kPageSize + U64 - base) % U64 = i * kPageSize := by
      simp [U64, kPageSize] at *
      omega
    have hidx : i * kPageSize / kPageSize = i := by
      simp [kPageSize]
    constructor
    · simp [lfpReturn, hp0, hheap]
    · have hklim : ¬ kLimit < 1 := by omega
      have hhead : i % U18 = i := Nat.mod_eq_of_lt (by omega)
      have hne : i ≠ kLimit := by omega
      simp [lfpReturn, hp0, hheap, lfpProvide, hklim, hstatus, hdist, hidx,
        hhead, havail, hne]
  · refine ⟨by decide, by decide, by decide⟩

/-- C7 witness: on an initialised provider with limit 2 and super-block
base 8192, Return of the page 8192 + 4096 succeeds and the next
Provide(1) hands the same page back. -/
theorem lockFreePage_reuse_is_lifo_witness :
    (lfpReturn lfpW (8192 + 1 * kPageSize)).1 = .ok () ∧
    (lfpProvide 2 (lfpReturn lfpW (8192 + 1 * kPageSize)).2 1).map Prod.fst =
      some (.ok (8192 + 1 * kPageSize)) :=
  lockFreePage_reuse_is_lifo.1 2 lfpW 8192 1 rfl rfl (by decide) (by decide)
    (by decide) (by decide)

/-- C8 counterexample, in two parts.  First, for a 32-byte block,
bytes_needed 40 at alignment 8 gives take = 40 > 32, a case the claim
places under "returns None and performs no split"; instead the
unsigned remainder 32 - 40 wraps around, the check passes, and
SplitBlock performs a split: it returns the header 4136 = block + take,
rewrites the block to {size = 40, next = 4136} — larger than the block
itself — and gives the new header the wrapped size 2^64 - 8.  Second,
for a 112-byte block, bytes_needed 8 at alignment 8 gives take = 8,
smaller than the 16-byte header, so the new header at block + 8
overlaps the block's own header: the final store of block.next lands on
the new header's size word and clobbers it with the pointer value 4104,
so the claimed write of {size = block.size - take} at block + take does
not survive. -/
theorem splitBlock_wrap_and_overlap_counterexample :
    (AlignUp 40 8 = 40 ∧
     (readHeader c8Heap 4096).size = 32 ∧
     c8IsOk = true ∧
     c8NewHdr = 4136 ∧
     readHeader c8HeapAfter 4096 = ⟨40, 4136⟩ ∧
     (readHeader c8HeapAfter 4136).size = U64 - 8) ∧
    (AlignUp 8 8 = 8 ∧
     (readHeader c8WHeap 4096).size = 112 ∧
     c8OvIsOk = true ∧
     c8OvNewHdr = 4104 ∧
     readHeader c8OvHeapAfter 4096 = ⟨8, 4104⟩ ∧
     (readHeader c8OvHeapAfter 4104).size = 4104 ∧
     (readHeader c8OvHeapAfter 4104).size ≠ 112 - 8) := by
  decide

/-- C8 (corrected).  For valid arguments with take ≤ block.size and
take of at least the header size, the claim holds: when the remainder
cannot accommodate a header plus one aligned payload byte, SplitBlock
returns None (the null header) and performs no split; otherwise it
zeroes the payload, writes the remainder header
{size = block.size - take, next = block.next} at block + take, updates
the block to {size = take, next = new_header}, and returns the new
header, the payload words other than the freshly written header reading
zero.  For take > block.size the unsigned remainder wraps around and a
bogus split is performed instead of returning None, and for
take = 8 < header_size the store of block.next clobbers the
overlapping new header's size word (see the two-part
counterexample). -/
theorem splitBlock_amended_postcondition
    (s : BlockHeap) (blk bytes alignment : Nat)
    (hblk : blk ≠ 0) (hb : bytes ≠ 0) (ha : IsValidAlignment alignment = true)
    (hsz : (readHeader s blk).size < U64)
    (hle : AlignUp bytes alignment ≤ (readHeader s blk).size) :
    ((readHeader s blk).size - AlignUp bytes alignment <
        AlignUp (kBlockHeaderSize + 1) alignment →
      SplitBlock s blk bytes alignment = .ok (0, s)) ∧
    (AlignUp (kBlockHeaderSize + 1) alignment ≤
        (readHeader s blk).size - AlignUp bytes alignment →
      kBlockHeaderSize ≤ AlignUp bytes alignment →
      ∃ s2, SplitBlock s blk bytes alignment =
          .ok (blk + AlignUp bytes alignment, s2) ∧
        readHeader s2 (blk + AlignUp bytes alignment) =
          ⟨(readHeader s blk).size - AlignUp bytes alignment,
           (readHeader s blk).next⟩ ∧
        readHeader s2 blk =
          ⟨AlignUp bytes alignment, blk + AlignUp bytes alignment⟩ ∧
        (∀ a, blk + kBlockHeaderSize ≤ a →
          a < blk + kBlockHeaderSize +
            ((readHeader s blk).size - kBlockHeaderSize) →
          a ≠ blk + AlignUp bytes alignment →
          a ≠ blk + AlignUp bytes alignment + 8 →
          s2.mem a = 0)) := by
  have hwrap : ((readHeader s blk).size + U64 - AlignUp bytes alignment) % U64
      = (readHeader s blk).size - AlignUp bytes alignment := by
    simp only [U64] at *
    omega
  constructor
  · intro hsmall
    simp [SplitBlock, hblk, hb, ha, hwrap, hsmall]
  · intro hbig htake
    have h16 : 16 ≤ AlignUp bytes alignment := htake
    have hnsmall : ¬ (((readHeader s blk).size + U64 - AlignUp bytes alignment)
        % U64 < AlignUp (kBlockHeaderSize + 1) alignment) := by
      rw [hwrap]; omega
    refine ⟨writeHeader
        (writeHeader (zeroBlock s blk) (blk + AlignUp bytes alignment)
          ⟨(readHeader s blk).size - AlignUp bytes alignment,
           (readHeader s blk).next⟩)
        blk ⟨AlignUp bytes alignment, blk + AlignUp bytes alignment⟩,
      ?_, ?_, ?_, ?_⟩
    · simp [SplitBlock, hblk, hb, ha, hnsmall, hwrap]
      intro h2
      exact absurd h2 (by omega)
    · rw [readHeader_writeHeader_ne _ _ _ _ (by omega) (by omega) (by omega),
        readHeader_writeHeader_self]
    · rw [readHeader_writeHeader_self]
    · intro a ha1 ha2 ha3 ha4
      have ha1b : blk + 16 ≤ a := ha1
      rw [mem_writeHeader_ne _ _ _ _ (by omega) (by omega),
        mem_writeHeader_ne _ _ _ _ ha3 ha4]
      simp only [zeroBlock]
      simp [ha1, ha2]

/-- C8 witness: splitting the 112-byte free block for 24 bytes at
alignment 8 leaves a 24-byte block pointing at the 88-byte remainder
header 4120, with the remaining payload words reading zero. -/
theorem splitBlock_amended_postcondition_witness :
    ∃ s2, SplitBlock c8WHeap 4096 24 8 = .ok (4096 + AlignUp 24 8, s2) ∧
      readHeader s2 (4096 + AlignUp 24 8) =
        ⟨(readHeader c8WHeap 4096).size - AlignUp 24 8,
         (readHeader c8WHeap 4096).next⟩ ∧
      readHeader s2 4096 = ⟨AlignUp 24 8, 4096 + AlignUp 24 8⟩ ∧
      (∀ a, 4096 + kBlockHeaderSize ≤ a →
        a < 4096 + kBlockHeaderSize +
          ((readHeader c8WHeap 4096).size - kBlockHeaderSize) →
        a ≠ 4096 + AlignUp 24 8 →
        a ≠ 4096 + AlignUp 24 8 + 8 →
        s2.mem a = 0) :=
  (splitBlock_amended_postcondition c8WHeap 4096 24 8 (by decide)
      (by decide) (by decide) (by decide) (by decide)).2 (by decide) (by decide)

/-- C9 (code_bug).  Three Finds carve the allocations 4128, 4152 and
4176 out of the 128-byte block; returning the first and the third (both
succeed) leaves the free list [4112, 4160, 4184] in which the header
4160 is immediately adjacent in memory to the free header 4184
(4160 + 24 = 4184) yet not coalesced with it: Coalesce runs only from
the splice point 4112, which is not adjacent to 4160, so the
no-adjacent-free-headers invariant is violated between two external
calls. -/
theorem freeList_leaves_adjacent_free_headers :
    flResOf flRun1 = some (.ok 4128) ∧
    flResOf flRun2 = some (.ok 4152) ∧
    flResOf flRun3 = some (.ok 4176) ∧
    flResOf flRet1 = some (.ok ()) ∧
    flResOf flRet3 = some (.ok ()) ∧
    freeChain flSt5.heap 8 flSt5.freeList = [4112, 4160, 4184] ∧
    (readHeader flSt5.heap 4160).next = 4184 ∧
    4160 + (readHeader flSt5.heap 4160).size = 4184 := by
  decide

/-- C10 (confirmed).  The free-list strategy's AcceptsReturn() is the
constant false, although Return succeeds on a valid outstanding
allocation: the pointer 4128 handed out by Find is returned
successfully. -/
theorem freeList_acceptsReturn_false_despite_working_return :
    flAcceptsReturn = false ∧
    flResOf flRun1 = some (.ok 4128) ∧
    flResOf flRetCycle = some (.ok ()) := by
  decide

end Allocators
